import Mathlib

/-!
Verification of the Baserow field-action core against its specification.

The development shallowly embeds two source files:

* backend/src/baserow/contrib/database/fields/actions.py — the
  FieldDataBackupHandler (column / join-table backup, restore, clean up)
  and the UpdateFieldActionType helpers (_should_backup_field,
  _get_backup_identifier).
* backend/tests/baserow/contrib/database/table/test_table_models.py — the
  tests pinning down the behaviour of the generic query operations
  (search_all_fields, order_by_fields_string, filter_by_fields_object).
  The implementations of those operations live in table/models.py, which is
  not part of the source tree given here, so they are modelled from the
  specification, refined where the repository's tests fix the behaviour.

Machine integers do not appear: all ids are Nat, cell payloads are String
or Int, and every operation that can fail returns Except.
-/

/-! ### Decimal rendering of natural numbers

Python renders integers in an f-string as their decimal digits.  The
functions below embed that rendering: toDecimalDigits produces the
big-endian decimal digit characters of a natural number. -/

/-- Numeric value of a decimal digit character. -/
def charVal (c : Char) : Nat := c.toNat - 48

/-- Fuel-driven computation of the big-endian decimal digit characters of
a natural number; any fuel above the argument suffices. -/
def toDecimalDigitsFuel : Nat → Nat → List Char
  | 0, _ => []
  | fuel + 1, n =>
    if n < 10 then [Nat.digitChar n]
    else toDecimalDigitsFuel fuel (n / 10) ++ [Nat.digitChar (n % 10)]

/-- Big-endian decimal digit characters of a natural number, as Python's
str(n) renders it. -/
def toDecimalDigits (n : Nat) : List Char := toDecimalDigitsFuel (n + 1) n

theorem toDecimalDigitsFuel_fuel_eq :
    ∀ (f1 : Nat) (f2 n : Nat), n < f1 → n < f2 →
    toDecimalDigitsFuel f1 n = toDecimalDigitsFuel f2 n := by
  intro f1
  induction f1 with
  | zero => intro f2 n h1; omega
  | succ g ih =>
    intro f2 n h1 h2
    cases f2 with
    | zero => omega
    | succ k =>
      simp only [toDecimalDigitsFuel]
      by_cases hn : n < 10
      · simp [hn]
      · simp only [if_neg hn]
        rw [ih k (n / 10) (by omega) (by omega)]

/-- One-step unfolding of toDecimalDigits. -/
theorem toDecimalDigits_step (n : Nat) :
    toDecimalDigits n =
      if n < 10 then [Nat.digitChar n]
      else toDecimalDigits (n / 10) ++ [Nat.digitChar (n % 10)] := by
  unfold toDecimalDigits
  rw [show toDecimalDigitsFuel (n + 1) n =
      if n < 10 then [Nat.digitChar n]
      else toDecimalDigitsFuel n (n / 10) ++ [Nat.digitChar (n % 10)] from rfl]
  by_cases hn : n < 10
  · simp [hn]
  · simp only [if_neg hn]
    rw [toDecimalDigitsFuel_fuel_eq n (n / 10 + 1) (n / 10) (by omega) (by omega)]

/-- Decimal string of a natural number. -/
def natStr (n : Nat) : String := ⟨toDecimalDigits n⟩

theorem digitChar_isDigit : ∀ n < 10, (Nat.digitChar n).isDigit = true := by decide

theorem charVal_digitChar : ∀ n < 10, charVal (Nat.digitChar n) = n := by decide

theorem toDecimalDigits_isDigit (n : Nat) :
    ∀ c ∈ toDecimalDigits n, c.isDigit = true := by
  induction n using Nat.strong_induction_on with
  | _ n ih =>
    rw [toDecimalDigits_step]
    split
    · intro c hc
      simp only [List.mem_singleton] at hc
      subst hc
      exact digitChar_isDigit n (by omega)
    · intro c hc
      rw [List.mem_append] at hc
      rcases hc with hc | hc
      · exact ih (n / 10) (Nat.div_lt_self (by omega) (by omega)) c hc
      · simp only [List.mem_singleton] at hc
        subst hc
        exact digitChar_isDigit (n % 10) (Nat.mod_lt _ (by omega))

/-- Value of a big-endian decimal digit list. -/
def digitsVal (l : List Char) : Nat := l.foldl (fun a c => a * 10 + charVal c) 0

theorem digitsVal_foldl_gen (l : List Char) : ∀ a : Nat,
    l.foldl (fun a c => a * 10 + charVal c) a = a * 10 ^ l.length + digitsVal l := by
  induction l with
  | nil => intro a; simp [digitsVal]
  | cons c l ih =>
    intro a
    simp only [List.foldl_cons, digitsVal, List.length_cons]
    rw [ih (a * 10 + charVal c), ih (0 * 10 + charVal c)]
    ring

theorem digitsVal_toDecimalDigits (n : Nat) : digitsVal (toDecimalDigits n) = n := by
  induction n using Nat.strong_induction_on with
  | _ n ih =>
    rw [toDecimalDigits_step]
    split
    · simp [digitsVal, charVal_digitChar n (by omega)]
    · rw [digitsVal, List.foldl_append]
      rw [show (toDecimalDigits (n / 10)).foldl (fun a c => a * 10 + charVal c) 0 =
        digitsVal (toDecimalDigits (n / 10)) from rfl]
      rw [ih (n / 10) (Nat.div_lt_self (by omega) (by omega))]
      simp only [List.foldl_cons, List.foldl_nil]
      rw [charVal_digitChar (n % 10) (Nat.mod_lt _ (by omega))]
      omega

theorem toDecimalDigits_injective {m n : Nat}
    (h : toDecimalDigits m = toDecimalDigits n) : m = n := by
  have := digitsVal_toDecimalDigits m
  rw [h, digitsVal_toDecimalDigits] at this
  omega

/-- A block of digit characters followed by a non-digit separator determines
itself: if two digit blocks followed by the same non-digit character produce
equal lists, the blocks and the tails agree. -/
theorem digit_block_eq (c : Char) (hc : c.isDigit = false) :
    ∀ (xs ys zs ws : List Char), (∀ a ∈ xs, a.isDigit = true) →
    (∀ a ∈ ys, a.isDigit = true) →
    xs ++ c :: zs = ys ++ c :: ws → xs = ys ∧ zs = ws := by
  intro xs
  induction xs with
  | nil =>
    intro ys zs ws _ hys h
    cases ys with
    | nil => simpa using h
    | cons y ys =>
      simp only [List.nil_append, List.cons_append, List.cons.injEq] at h
      have : y.isDigit = true := hys y (by simp)
      rw [← h.1] at this
      rw [hc] at this
      exact absurd this (by simp)
  | cons x xs ih =>
    intro ys zs ws hxs hys h
    cases ys with
    | nil =>
      simp only [List.cons_append, List.nil_append, List.cons.injEq] at h
      have : x.isDigit = true := hxs x (by simp)
      rw [h.1] at this
      rw [hc] at this
      exact absurd this (by simp)
    | cons y ys =>
      simp only [List.cons_append, List.cons.injEq] at h
      have htail := ih ys zs ws (fun a ha => hxs a (by simp [ha]))
        (fun a ha => hys a (by simp [ha])) h.2
      exact ⟨by rw [h.1, htail.1], htail.2⟩

/-! ### UpdateFieldActionType._get_backup_identifier

Source (actions.py, lines 477-492):

    base_name = f"field_{field_id}_backup_{action.id}"
    if for_undo:
        return base_name + "_undo"
    else:
        return base_name

The action is represented by its numeric id. -/

/-- Embedding of UpdateFieldActionType._get_backup_identifier.  Returns a
column/table name unique to this action and field. -/
def get_backup_identifier (action_id : Nat) (field_id : Nat) (for_undo : Bool) :
    String :=
  let base_name := "field_" ++ natStr field_id ++ "_backup_" ++ natStr action_id
  if for_undo then base_name ++ "_undo" else base_name

theorem string_data_append (s t : String) : (s ++ t).data = s.data ++ t.data := rfl

/-- Character-level view of get_backup_identifier. -/
theorem get_backup_identifier_data (action_id field_id : Nat) (for_undo : Bool) :
    (get_backup_identifier action_id field_id for_undo).data =
      "field_".data ++ toDecimalDigits field_id ++ "_backup_".data ++
        toDecimalDigits action_id ++ (if for_undo then "_undo".data else []) := by
  unfold get_backup_identifier
  cases for_undo <;> simp [string_data_append, natStr]

theorem underscore_not_digit : ('_').isDigit = false := by decide

theorem natStr_append_inj {f f' : Nat} {t t' : List Char}
    (h : toDecimalDigits f ++ '_' :: t = toDecimalDigits f' ++ '_' :: t') :
    f = f' ∧ t = t' := by
  have hb := digit_block_eq '_' underscore_not_digit
    (toDecimalDigits f) (toDecimalDigits f') t t'
    (toDecimalDigits_isDigit f) (toDecimalDigits_isDigit f') h
  exact ⟨toDecimalDigits_injective hb.1, hb.2⟩

/-- C10: the backup identifier function is injective — distinct
(action identity, column identity, for_undo direction) triples produce
distinct identifier strings, so two independent actions, or the undo and
redo directions of the same action, never address the same backup storage. -/
theorem get_backup_identifier_injective
    (a f : Nat) (u : Bool) (a' f' : Nat) (u' : Bool)
    (hne : (a, f, u) ≠ (a', f', u')) :
    get_backup_identifier a f u ≠ get_backup_identifier a' f' u' := by
  intro heq
  apply hne
  have hdata : (get_backup_identifier a f u).data =
      (get_backup_identifier a' f' u').data := by rw [heq]
  rw [get_backup_identifier_data, get_backup_identifier_data] at hdata
  -- Strip the literal "field_" prefix and split at the '_' after the
  -- field-id digit block.
  have h1 : toDecimalDigits f ++ '_' ::
        ("backup_".data ++ toDecimalDigits a ++ (if u then "_undo".data else [])) =
      toDecimalDigits f' ++ '_' ::
        ("backup_".data ++ toDecimalDigits a' ++ (if u' then "_undo".data else [])) := by
    have := hdata
    simp only [List.append_assoc] at this
    have h0 : "field_".data ++ (toDecimalDigits f ++ ("_backup_".data ++
        (toDecimalDigits a ++ (if u then "_undo".data else [])))) =
        "field_".data ++ (toDecimalDigits f' ++ ("_backup_".data ++
        (toDecimalDigits a' ++ (if u' then "_undo".data else [])))) := this
    have h0' := List.append_cancel_left h0
    simpa using h0'
  obtain ⟨hf, h2⟩ := natStr_append_inj h1
  have h3 : toDecimalDigits a ++ (if u then "_undo".data else []) =
      toDecimalDigits a' ++ (if u' then "_undo".data else []) := by
    simpa using h2
  subst hf
  cases u <;> cases u'
  · have h4 : toDecimalDigits a = toDecimalDigits a' := by simpa using h3
    rw [toDecimalDigits_injective h4]
  · exfalso
    have h4 : toDecimalDigits a = toDecimalDigits a' ++ '_' :: "undo".data := by
      simpa using h3
    have hmem : '_' ∈ toDecimalDigits a := by
      rw [h4]
      simp
    have hd := toDecimalDigits_isDigit a '_' hmem
    simp [underscore_not_digit] at hd
  · exfalso
    have h4 : toDecimalDigits a ++ '_' :: "undo".data = toDecimalDigits a' := by
      simpa using h3
    have hmem : '_' ∈ toDecimalDigits a' := by
      rw [← h4]
      simp
    have hd := toDecimalDigits_isDigit a' '_' hmem
    simp [underscore_not_digit] at hd
  · have h4 : toDecimalDigits a ++ '_' :: "undo".data =
        toDecimalDigits a' ++ '_' :: "undo".data := by simpa using h3
    obtain ⟨ha, -⟩ := natStr_append_inj h4
    rw [ha]

/-- Witness for C10 at a concrete input: the undo and redo identifiers of
action 1 on field 2 differ. -/
theorem get_backup_identifier_injective_witness :
    get_backup_identifier 1 2 true ≠ get_backup_identifier 1 2 false :=
  get_backup_identifier_injective 1 2 true 1 2 false (by decide)

/-! ### FieldDataBackupHandler — scalar column backup

A user table is modelled as a bag of named columns over a fixed number of
rows; a column holds one nullable value per row (position i is row i).  The
association list of columns mirrors the physical table's column set. -/

/-- A physical user table: nrows rows and an association list of named
columns, each a list of nullable cell values (one per row). -/
structure STable (α : Type) where
  nrows : Nat
  cols : List (String × List (Option α))
deriving DecidableEq

/-- Column contents by name (first match), empty if absent. -/
def getColData {α : Type} : List (String × List (Option α)) → String → List (Option α)
  | [], _ => []
  | (k, v) :: rest, n => if k = n then v else getColData rest n

/-- Replace the contents of every column named n. -/
def setColData {α : Type} (cols : List (String × List (Option α))) (n : String)
    (v : List (Option α)) : List (String × List (Option α)) :=
  cols.map (fun p => if p.1 = n then (p.1, v) else p)

/-- Names of the columns of a table. -/
def colNames {α : Type} (cols : List (String × List (Option α))) : List String :=
  cols.map Prod.fst

/-- Embedding of _create_duplicate_nullable_column: adds a new column with
the given name whose value is NULL for every existing row (the column is
created nullable so concurrent INSERTs keep working). -/
def create_duplicate_nullable_column {α : Type} (t : STable α)
    (new_column_name : String) : STable α :=
  { t with cols := t.cols ++ [(new_column_name, List.replicate t.nrows none)] }

/-- Row-wise merge used by the UPDATE ... WHERE source IS NOT NULL copy:
the target keeps its value exactly where the source is NULL. -/
def mergeNotNull {α : Type} (src tgt : List (Option α)) : List (Option α) :=
  List.zipWith (fun s t => match s with | some v => some v | none => t) src tgt

/-- Embedding of _copy_not_null_column_data:
UPDATE t SET target = source WHERE source IS NOT NULL. -/
def copy_not_null_column_data {α : Type} (t : STable α)
    (source_column target_column : String) : STable α :=
  { t with
    cols := setColData t.cols target_column
              (mergeNotNull (getColData t.cols source_column)
                (getColData t.cols target_column)) }

/-- Embedding of _drop_column: ALTER TABLE t DROP COLUMN c. -/
def drop_column {α : Type} (t : STable α) (column_to_drop : String) : STable α :=
  { t with cols := t.cols.filter (fun p => p.1 ≠ column_to_drop) }

/-- Scalar branch of FieldDataBackupHandler.backup_field_data: create the
duplicate nullable column, then bulk-copy the non-null live values into it. -/
def backup_field_data_scalar {α : Type} (t : STable α) (source_column : String)
    (identifier_to_backup_into : String) : STable α :=
  copy_not_null_column_data
    (create_duplicate_nullable_column t identifier_to_backup_into)
    source_column identifier_to_backup_into

/-- Scalar branch of FieldDataBackupHandler.restore_backup_data_into_field:
bulk-copy the non-null backup values into the live column, then drop the
backup column. -/
def restore_backup_data_scalar {α : Type} (t : STable α)
    (backed_up_column_name : String) (live_column : String) : STable α :=
  drop_column
    (copy_not_null_column_data t backed_up_column_name live_column)
    backed_up_column_name

/-! ### FieldDataBackupHandler — many-to-many (join table) backup -/

/-- A many-to-many join table: rows of (id, m2m column, m2m reverse column)
plus the value of its id sequence. -/
structure JoinTable where
  rows : List (Nat × Nat × Nat)
  seq : Nat
deriving DecidableEq

/-- Largest row id of a join table (0 when empty). -/
def maxRowId (rows : List (Nat × Nat × Nat)) : Nat :=
  rows.foldl (fun m r => max m r.1) 0

/-- Embedding of _create_duplicate_m2m_table: a fresh empty join table with
the same two foreign-key columns and a fresh sequence. -/
def create_duplicate_m2m_table : JoinTable := { rows := [], seq := 1 }

/-- Embedding of _copy_m2m_data_between_tables: INSERT INTO target
(id, col, reverse) SELECT id, col, reverse FROM source, preserving ids,
followed by the sequence reset to max copied id plus one. -/
def copy_m2m_data_between_tables (source target : JoinTable) : JoinTable :=
  let inserted := target.rows ++ source.rows
  { rows := inserted, seq := maxRowId inserted + 1 }

/-- Embedding of _truncate_table: TRUNCATE TABLE (sequence untouched). -/
def truncate_table (t : JoinTable) : JoinTable := { t with rows := [] }

/-- Embedding of _drop_table, at the level of a single join table: the
table object ceases to exist; nothing about the live table changes. -/
def drop_table (live : JoinTable) : JoinTable := live

/-- M2M branch of backup_field_data: duplicate the join table and copy
every live row into it. -/
def backup_field_data_m2m (live : JoinTable) : JoinTable :=
  copy_m2m_data_between_tables live create_duplicate_m2m_table

/-- M2M branch of restore_backup_data_into_field: truncate the live join
table, copy the backup rows back, drop the backup table. -/
def restore_backup_data_m2m (live backup : JoinTable) : JoinTable :=
  drop_table (copy_m2m_data_between_tables backup (truncate_table live))

theorem getColData_cons {α : Type} (p : String × List (Option α))
    (rest : List (String × List (Option α))) (n : String) :
    getColData (p :: rest) n = if p.1 = n then p.2 else getColData rest n := rfl

theorem getColData_append_right {α : Type}
    (cols : List (String × List (Option α))) (n : String) (v : List (Option α))
    (h : n ∉ colNames cols) :
    getColData (cols ++ [(n, v)]) n = v := by
  induction cols with
  | nil => simp [getColData]
  | cons p rest ih =>
    simp only [colNames, List.map_cons, List.mem_cons] at h
    push_neg at h
    rw [List.cons_append, getColData_cons, if_neg (Ne.symm h.1)]
    exact ih (by simpa [colNames] using h.2)

theorem getColData_append_left {α : Type}
    (cols tail : List (String × List (Option α))) (m : String)
    (h : m ∈ colNames cols) :
    getColData (cols ++ tail) m = getColData cols m := by
  induction cols with
  | nil => simp [colNames] at h
  | cons p rest ih =>
    rw [List.cons_append, getColData_cons, getColData_cons]
    by_cases hp : p.1 = m
    · simp [hp]
    · simp only [if_neg hp]
      simp only [colNames, List.map_cons, List.mem_cons] at h
      rcases h with h | h
      · exact absurd h.symm hp
      · exact ih (by simpa [colNames] using h)

theorem mergeNotNull_replicate {α : Type} (src : List (Option α)) (k : Nat)
    (h : src.length = k) : mergeNotNull src (List.replicate k none) = src := by
  induction src generalizing k with
  | nil => simp [mergeNotNull]
  | cons s rest ih =>
    cases k with
    | zero => simp at h
    | succ k =>
      simp only [List.replicate, mergeNotNull, List.zipWith_cons_cons]
      rw [show List.zipWith (fun s t => match s with | some v => some v | none => t)
        rest (List.replicate k none) = mergeNotNull rest (List.replicate k none) from rfl]
      rw [ih k (by simpa using h)]
      cases s <;> simp

theorem mergeNotNull_self {α : Type} (l : List (Option α)) :
    mergeNotNull l l = l := by
  induction l with
  | nil => rfl
  | cons s rest ih =>
    simp only [mergeNotNull, List.zipWith_cons_cons]
    rw [show List.zipWith (fun s t => match s with | some v => some v | none => t)
      rest rest = mergeNotNull rest rest from rfl]
    rw [ih]
    cases s <;> simp

theorem setColData_not_mem {α : Type} (cols : List (String × List (Option α)))
    (n : String) (w : List (Option α)) (h : n ∉ colNames cols) :
    setColData cols n w = cols := by
  induction cols with
  | nil => rfl
  | cons p rest ih =>
    simp only [colNames, List.map_cons, List.mem_cons] at h
    push_neg at h
    simp only [setColData, List.map_cons, if_neg (Ne.symm h.1)]
    have := ih (by simpa [colNames] using h.2)
    simp only [setColData] at this
    rw [this]

theorem setColData_append_single {α : Type} (cols : List (String × List (Option α)))
    (b : String) (v w : List (Option α)) (h : b ∉ colNames cols) :
    setColData (cols ++ [(b, v)]) b w = cols ++ [(b, w)] := by
  simp only [setColData, List.map_append]
  have h1 : cols.map (fun p => if p.1 = b then (p.1, w) else p) = cols := by
    have := setColData_not_mem cols b w h
    simpa [setColData] using this
  rw [h1]
  simp

theorem setColData_getColData_self {α : Type}
    (cols : List (String × List (Option α))) (n : String)
    (hnd : (colNames cols).Nodup) :
    setColData cols n (getColData cols n) = cols := by
  induction cols with
  | nil => rfl
  | cons p rest ih =>
    simp only [colNames, List.map_cons, List.nodup_cons] at hnd
    by_cases hp : p.1 = n
    · subst hp
      have h1 : setColData rest p.1 p.2 = rest :=
        setColData_not_mem rest p.1 p.2 (by simpa [colNames] using hnd.1)
      simp only [setColData] at h1
      simp [setColData, getColData_cons, h1]
    · simp only [setColData, List.map_cons, if_neg hp, getColData_cons, if_neg hp]
      have := ih hnd.2
      simp only [setColData] at this
      rw [this]

theorem filter_keys_ne {α : Type} (cols : List (String × List (Option α)))
    (b : String) (h : b ∉ colNames cols) :
    cols.filter (fun p => p.1 ≠ b) = cols := by
  induction cols with
  | nil => rfl
  | cons p rest ih =>
    simp only [colNames, List.map_cons, List.mem_cons] at h
    push_neg at h
    rw [List.filter_cons_of_pos (by simpa using Ne.symm h.1)]
    rw [ih (by simpa [colNames] using h.2)]

/-- Contents of the columns after the scalar backup step: the original
columns, plus the backup column holding a copy of the source column. -/
theorem backup_field_data_scalar_cols {α : Type} (t : STable α) (src b : String)
    (hsrc : src ∈ colNames t.cols) (hb : b ∉ colNames t.cols)
    (hlen : (getColData t.cols src).length = t.nrows) :
    (backup_field_data_scalar t src b).cols =
      t.cols ++ [(b, getColData t.cols src)] := by
  unfold backup_field_data_scalar copy_not_null_column_data
    create_duplicate_nullable_column
  simp only
  rw [getColData_append_left t.cols [(b, List.replicate t.nrows none)] src hsrc]
  rw [getColData_append_right t.cols b (List.replicate t.nrows none) hb]
  rw [mergeNotNull_replicate (getColData t.cols src) t.nrows hlen]
  exact setColData_append_single t.cols b (List.replicate t.nrows none)
    (getColData t.cols src) hb

/-- C1: for every column — scalar or many-to-many relation — and every row
set including the empty one, restoring the backup produced by
backup_field_data leaves the column data observably identical to its state
at backup time: the scalar round trip returns the table unchanged (backup
column dropped again), and the join-table round trip restores exactly the
original join rows. -/
theorem backup_restore_roundtrip :
    (∀ (α : Type) (t : STable α) (src b : String),
      (colNames t.cols).Nodup → src ∈ colNames t.cols → b ∉ colNames t.cols →
      (getColData t.cols src).length = t.nrows →
      restore_backup_data_scalar (backup_field_data_scalar t src b) b src = t) ∧
    (∀ live : JoinTable,
      (restore_backup_data_m2m live (backup_field_data_m2m live)).rows =
        live.rows) := by
  constructor
  · intro α t src b hnd hsrc hb hlen
    have hcols := backup_field_data_scalar_cols t src b hsrc hb hlen
    have hnrows : (backup_field_data_scalar t src b).nrows = t.nrows := rfl
    unfold restore_backup_data_scalar copy_not_null_column_data drop_column
    simp only [hcols, hnrows]
    rw [getColData_append_right t.cols b (getColData t.cols src) hb]
    rw [getColData_append_left t.cols [(b, getColData t.cols src)] src hsrc]
    rw [mergeNotNull_self]
    have hnd2 : (colNames (t.cols ++ [(b, getColData t.cols src)])).Nodup := by
      simp only [colNames, List.map_append, List.map_cons, List.map_nil]
      rw [List.nodup_append]
      refine ⟨hnd, List.nodup_singleton b, ?_⟩
      intro x hx
      simp only [List.mem_singleton]
      intro hxb
      subst hxb
      exact hb hx
    have hset : setColData (t.cols ++ [(b, getColData t.cols src)]) src
        (getColData t.cols src) = t.cols ++ [(b, getColData t.cols src)] := by
      have hget : getColData (t.cols ++ [(b, getColData t.cols src)]) src =
          getColData t.cols src :=
        getColData_append_left t.cols [(b, getColData t.cols src)] src hsrc
      have := setColData_getColData_self
        (t.cols ++ [(b, getColData t.cols src)]) src hnd2
      rw [hget] at this
      exact this
    rw [hset]
    have hfil : (t.cols ++ [(b, getColData t.cols src)]).filter
        (fun p => p.1 ≠ b) = t.cols := by
      rw [List.filter_append, filter_keys_ne t.cols b hb]
      simp
    rw [hfil]
  · intro live
    rfl

/-- A concrete two-row table for witnesses: one text column holding a value
and a NULL. -/
def sampleTable : STable String :=
  { nrows := 2,
    cols := [("field_1", [some "x", none]), ("field_2", [none, some "y"])] }

/-- Witness for C1 at concrete inputs: a two-row table with a NULL, and a
one-row join table. -/
theorem backup_restore_roundtrip_witness :
    restore_backup_data_scalar
        (backup_field_data_scalar sampleTable "field_1" "field_1_backup_9")
        "field_1_backup_9" "field_1" = sampleTable ∧
    (restore_backup_data_m2m ⟨[(1, 5, 7)], 2⟩
        (backup_field_data_m2m ⟨[(1, 5, 7)], 2⟩)).rows = [(1, 5, 7)] :=
  ⟨backup_restore_roundtrip.1 String sampleTable "field_1" "field_1_backup_9"
      (by decide) (by decide) (by decide) (by decide),
   backup_restore_roundtrip.2 ⟨[(1, 5, 7)], 2⟩⟩

/-! ### UpdateFieldActionType._should_backup_field

Source (actions.py, lines 415-443):

    from_field_type = field_type_registry.get_by_model(original_field)
    from_field_type_name = from_field_type.type
    field_type_changed = to_field_type_name != from_field_type_name
    only_name_changed = allowed_new_field_attrs.keys() == {"name"}
    if from_field_type.field_data_is_derived_from_attrs:
        return False
    return field_type_changed or (
        from_field_type.should_backup_field_data_for_same_type_update(
            original_field, allowed_new_field_attrs)
        and not only_name_changed)

A field type from the external type catalog is modelled by its name and the
two consulted capabilities; should_backup_field_data_for_same_type_update
is the catalog's callback already partially applied to the original field
instance (the decision depends on the original field only through that
call), so it takes just the set of attribute keys being updated.  The
attribute dictionary enters the decision only through its key set, so it is
modelled as a Finset of keys. -/

/-- A column type from the external field-type catalog, restricted to the
capabilities _should_backup_field consults. -/
structure FieldType where
  type : String
  field_data_is_derived_from_attrs : Bool
  should_backup_field_data_for_same_type_update : Finset String → Bool

/-- Embedding of UpdateFieldActionType._should_backup_field. -/
def should_backup_field (from_field_type : FieldType)
    (to_field_type_name : String) (allowed_new_field_attrs : Finset String) :
    Bool :=
  let from_field_type_name := from_field_type.type
  let field_type_changed : Bool := to_field_type_name != from_field_type_name
  let only_name_changed : Bool :=
    allowed_new_field_attrs == ({"name"} : Finset String)
  if from_field_type.field_data_is_derived_from_attrs then false
  else
    field_type_changed ||
      (from_field_type.should_backup_field_data_for_same_type_update
          allowed_new_field_attrs
        && !only_name_changed)

/-- C4: UpdateFieldActionType backs a field up if and only if its type is
not derivable from its own attributes, and either the field type changes,
or the type is unchanged but the from-type declares this combination of
changed attributes backup-worthy and the change is not a name-only change. -/
theorem should_backup_field_iff (ft : FieldType) (to_name : String)
    (attrs : Finset String) :
    should_backup_field ft to_name attrs = true ↔
      (ft.field_data_is_derived_from_attrs = false ∧
        (to_name ≠ ft.type ∨
          (to_name = ft.type ∧
            ft.should_backup_field_data_for_same_type_update attrs = true ∧
            attrs ≠ {"name"}))) := by
  unfold should_backup_field
  by_cases hd : ft.field_data_is_derived_from_attrs <;>
    by_cases hc : to_name = ft.type <;>
      simp [hd, hc]

/-! ### FieldDataBackupHandler.clean_up_backup_data

Source (actions.py, lines 149-173).  The relational store is modelled as:
the Table.objects_and_trash manager (durable table id to physical table
name, trashed tables included), the physical tables' column lists, and the
set of existing join tables.  DROP TABLE and ALTER TABLE DROP COLUMN on a
missing object are fatal store failures; Table.DoesNotExist on the id
lookup is caught by the source and turned into a no-op. -/

/-- The backup-data dictionary returned by backup_field_data: exactly one
of the two variants (backed_up_m2m_table_name present, or the pair of
table_id_containing_backup_column and backed_up_column_name). -/
inductive BackupData where
  | m2m (backed_up_m2m_table_name : String)
  | column (table_id_containing_backup_column : Nat)
      (backed_up_column_name : String)
deriving DecidableEq

/-- A store-level failure (missing table or column on a DDL statement);
always fatal, propagated to the caller. -/
inductive StoreError where
  | storeFailure
deriving DecidableEq

/-- The relational store visible to clean_up_backup_data. -/
structure Database where
  tables_and_trash : List (Nat × String)
  table_columns : List (String × List String)
  join_tables : List String
deriving DecidableEq

/-- Table.objects_and_trash.get(id=...): physical table name of a durable
table id, trashed tables included. -/
def lookupTableName : List (Nat × String) → Nat → Option String
  | [], _ => none
  | (i, n) :: rest, tid => if i = tid then some n else lookupTableName rest tid

/-- Remove a column from the named table's column list; none when the
table or the column does not exist. -/
def dropColFrom : List (String × List String) → String → String →
    Option (List (String × List String))
  | [], _, _ => none
  | (k, cs) :: rest, tname, cname =>
    if k = tname then
      if cname ∈ cs then some ((k, cs.erase cname) :: rest) else none
    else
      (dropColFrom rest tname cname).map (fun r => (k, cs) :: r)

/-- DROP TABLE at the store level (the _drop_table call of the source). -/
def db_drop_table (db : Database) (name : String) : Except StoreError Database :=
  if name ∈ db.join_tables then
    .ok { db with join_tables := db.join_tables.erase name }
  else
    .error .storeFailure

/-- ALTER TABLE ... DROP COLUMN at the store level (the _drop_column call
of the source). -/
def db_drop_column (db : Database) (tname cname : String) :
    Except StoreError Database :=
  match dropColFrom db.table_columns tname cname with
  | some tc => .ok { db with table_columns := tc }
  | none => .error .storeFailure

/-- Embedding of FieldDataBackupHandler.clean_up_backup_data: drop the
backup join table, or resolve the owning table through the durable table
id (trashed included) and drop the backup column; a table id that no
longer resolves is caught (Table.DoesNotExist) and ends as a no-op. -/
def clean_up_backup_data (db : Database) (bd : BackupData) :
    Except StoreError Database :=
  match bd with
  | .m2m name => db_drop_table db name
  | .column tid cname =>
    match lookupTableName db.tables_and_trash tid with
    | some tname => db_drop_column db tname cname
    | none => .ok db

/-- C9: clean_up_backup_data drops the backup join table for a relation
backup; for a column backup it resolves the owning table through the
durable table identity (trashed tables included) and drops the backup
column; and when that identity no longer resolves the call completes as a
no-op rather than an error. -/
theorem clean_up_backup_data_spec :
    (∀ (db : Database) (name : String), name ∈ db.join_tables →
      clean_up_backup_data db (.m2m name) =
        .ok { db with join_tables := db.join_tables.erase name }) ∧
    (∀ (db : Database) (tid : Nat) (cname tname : String)
        (tc : List (String × List String)),
      lookupTableName db.tables_and_trash tid = some tname →
      dropColFrom db.table_columns tname cname = some tc →
      clean_up_backup_data db (.column tid cname) =
        .ok { db with table_columns := tc }) ∧
    (∀ (db : Database) (tid : Nat) (cname : String),
      lookupTableName db.tables_and_trash tid = none →
      clean_up_backup_data db (.column tid cname) = .ok db) := by
  refine ⟨?_, ?_, ?_⟩
  · intro db name h
    simp [clean_up_backup_data, db_drop_table, h]
  · intro db tid cname tname tc h1 h2
    simp [clean_up_backup_data, h1, db_drop_column, h2]
  · intro db tid cname h
    simp [clean_up_backup_data, h]

/-- A concrete store for the C9 witness: one (trashed or live) table with a
leftover backup column, and one backup join table. -/
def sampleDb : Database :=
  { tables_and_trash := [(7, "database_table_7")],
    table_columns := [("database_table_7", ["field_1", "field_1_backup_3"])],
    join_tables := ["field_2_backup_4"] }

/-- Witness for C9 at concrete inputs: all three behaviours on sampleDb. -/
theorem clean_up_backup_data_spec_witness :
    clean_up_backup_data sampleDb (.m2m "field_2_backup_4") =
      .ok { sampleDb with join_tables := sampleDb.join_tables.erase "field_2_backup_4" } ∧
    clean_up_backup_data sampleDb (.column 7 "field_1_backup_3") =
      .ok { sampleDb with table_columns := [("database_table_7", ["field_1"])] } ∧
    clean_up_backup_data sampleDb (.column 99 "field_1_backup_3") = .ok sampleDb :=
  ⟨clean_up_backup_data_spec.1 sampleDb "field_2_backup_4" (by decide),
   clean_up_backup_data_spec.2.1 sampleDb 7 "field_1_backup_3" "database_table_7"
     [("database_table_7", ["field_1"])] (by decide) (by decide),
   clean_up_backup_data_spec.2.2 sampleDb 99 "field_1_backup_3" (by decide)⟩

/-! ### The generic query operations

search_all_fields, order_by_fields_string and filter_by_fields_object live
in baserow/contrib/database/table/models.py, which is not part of the
given source tree — only their tests are (test_table_models.py).  They are
therefore modelled from the specification (sections 4.2, 6 and 7), refined
where the repository's tests fix the behaviour.  A table is a list of
column definitions (stable id plus type tag) and rows carry one cell per
column id. -/

/-- Type tag of a user-defined column, drawn from the type catalog. -/
inductive FieldTag where
  | text
  | long_text
  | number
  | boolean
  | link_row
deriving DecidableEq

/-- One user-defined column: stable numeric identity and type tag. -/
structure FieldDef where
  id : Nat
  ftype : FieldTag
deriving DecidableEq

/-- A cell value. -/
inductive Cell where
  | text (s : String)
  | num (n : Int)
  | nullv
  | links (ids : List Nat)
deriving DecidableEq

/-- A table row: identity, ordering position, and cells keyed by column id. -/
structure Row where
  id : Nat
  order : Nat
  cells : List (Nat × Cell)
deriving DecidableEq

/-- Column definition with the given id, if any. -/
def findField : List FieldDef → Nat → Option FieldDef
  | [], _ => none
  | f :: rest, fid => if f.id = fid then some f else findField rest fid

/-- Cell of a row in the column with the given id (NULL when absent). -/
def getCell : List (Nat × Cell) → Nat → Cell
  | [], _ => .nullv
  | (k, c) :: rest, fid => if k = fid then c else getCell rest fid

/-- ASCII lower-casing of a character (the case folding Python's
str.lower performs on the ASCII range). -/
def lowerChar (c : Char) : Char :=
  if 65 ≤ c.toNat ∧ c.toNat ≤ 90 then Char.ofNat (c.toNat + 32) else c

/-- Whether the pattern list is a leading part of the other list. -/
def leadsList : List Char → List Char → Bool
  | [], _ => true
  | _ :: _, [] => false
  | x :: xs, y :: ys => x == y && leadsList xs ys

/-- Whether the pattern occurs contiguously inside the other list. -/
def occursIn (xs : List Char) : List Char → Bool
  | [] => xs.isEmpty
  | y :: ys => leadsList xs (y :: ys) || occursIn xs ys

/-- Case-insensitive substring test (SQL ILIKE '%term%'). -/
def containsCI (haystack needle : String) : Bool :=
  occursIn (needle.data.map lowerChar) (haystack.data.map lowerChar)

/-- Decimal rendering of an integer, as Python str(int). -/
def intStr (n : Int) : String :=
  if n < 0 then "-" ++ natStr n.natAbs else natStr n.natAbs

/-- Textual content of a cell as seen by search (numbers are searched via
their decimal rendering; NULLs and link cells have no searchable text). -/
def cellText : Cell → Option String
  | .text s => some s
  | .num n => some (intStr n)
  | .nullv => none
  | .links _ => none

/-- Whether a cell contains the term as a case-insensitive substring. -/
def cellContainsCI (c : Cell) (term : String) : Bool :=
  match cellText c with
  | some s => containsCI s term
  | none => false

/-- Whether a column type declares itself searchable (isSearchable of the
type catalog): text-like and number columns are, boolean and link columns
are not. -/
def isSearchable : FieldTag → Bool
  | .text => true
  | .long_text => true
  | .number => true
  | .boolean => false
  | .link_row => false

/-- Python int(term) on a digits-only string, none otherwise. -/
def strToNat? (s : String) : Option Nat :=
  if s.data ≠ [] ∧ s.data.all Char.isDigit then some (digitsVal s.data) else none

/-- Contribution of one column to the search filter: the column's type must
be searchable and the cell must contain the term case-insensitively. -/
def searchFieldMatches (r : Row) (f : FieldDef) (term : String) : Bool :=
  isSearchable f.ftype && cellContainsCI (getCell r.cells f.id) term

/-- Modelled from the spec: search_all_fields of table/models.py (not under
the given source tree).  Builds one OR-filter contribution per column of
the schema view, ORs in a row-identity match when the term is an integer,
and filters the row set. -/
def search_all_fields (fields : List FieldDef) (rows : List Row)
    (term : String) : List Row :=
  let colFilter :=
    fields.foldl (fun acc f => fun row => acc row || searchFieldMatches row f term)
      (fun _ => false)
  let idFilter : Row → Bool := fun row =>
    match strToNat? term with
    | some n => row.id == n
    | none => false
  rows.filter (fun row => colFilter row || idFilter row)

theorem searchFold_eq (fields : List FieldDef) (term : String) :
    ∀ (init : Row → Bool) (r : Row),
    (fields.foldl (fun acc f => fun row => acc row || searchFieldMatches row f term)
        init) r =
      (init r || fields.any (fun f => searchFieldMatches r f term)) := by
  induction fields with
  | nil => intro init r; simp
  | cons f rest ih =>
    intro init r
    simp only [List.foldl_cons, List.any_cons]
    rw [ih (fun row => init row || searchFieldMatches row f term) r]
    simp [Bool.or_assoc]

/-- Columns of the Cars test table: Name, Color, Price, Description. -/
def carFields : List FieldDef :=
  [⟨1, .text⟩, ⟨2, .text⟩, ⟨3, .number⟩, ⟨4, .long_text⟩]

/-- Rows of the search test (test_search_all_fields_queryset). -/
def searchRows : List Row :=
  [⟨1, 1, [(1, .text "BMW"), (2, .text "Blue"), (3, .num 10000),
          (4, .text "This is the fastest car there is.")]⟩,
   ⟨2, 1, [(1, .text "Audi"), (2, .text "Orange"), (3, .num 20000),
          (4, .text "This is the most expensive car we have.")]⟩,
   ⟨3, 1, [(1, .text "Volkswagen"), (2, .text "White"), (3, .num 5000),
          (4, .text "The oldest car that we have.")]⟩]

/-- C5: search_all_fields returns exactly the rows in which some column
whose type is searchable contains the term as a case-insensitive
substring, or whose row identity equals the term read as an integer; and
on the test table a term spanning the values of two different columns,
"white car", matches no row. -/
theorem search_all_fields_spec :
    (∀ (fields : List FieldDef) (rows : List Row) (term : String) (r : Row),
      r ∈ search_all_fields fields rows term ↔
        r ∈ rows ∧
          ((∃ f ∈ fields, isSearchable f.ftype = true ∧
              cellContainsCI (getCell r.cells f.id) term = true) ∨
            strToNat? term = some r.id)) ∧
    search_all_fields carFields searchRows "white car" = [] := by
  constructor
  · intro fields rows term r
    unfold search_all_fields
    simp only [List.mem_filter]
    rw [searchFold_eq fields term (fun _ => false) r]
    simp only [Bool.false_or, Bool.or_eq_true, List.any_eq_true,
      searchFieldMatches, Bool.and_eq_true]
    constructor
    · rintro ⟨hr, h | h⟩
      · exact ⟨hr, .inl (by simpa using h)⟩
      · refine ⟨hr, .inr ?_⟩
        cases hs : strToNat? term with
        | none => rw [hs] at h; simp at h
        | some n =>
          rw [hs] at h
          simp only [beq_iff_eq] at h
          rw [h]
    · rintro ⟨hr, h | h⟩
      · exact ⟨hr, .inl (by simpa using h)⟩
      · refine ⟨hr, .inr ?_⟩
        rw [h]
        simp
  · decide

/-! ### filter_by_fields_object (modelled from the spec)

Filter keys have the exact shape filter__field_<digits>__<operator-name>;
any other key is silently ignored.  filter_type must be exactly "AND" or
"OR" and is checked before anything else.  Each recognized key resolves
its column and operator, then contributes one condition per value (a
single string value is one condition; a sequence contributes one condition
per element); conditions accumulate into one filter combined with the
given boolean operator, Django-Q style where the empty filter matches
every row. -/

/-- The value attached to a filter key: either a single string or a
sequence of strings. -/
inductive FilterValue where
  | one (s : String)
  | many (l : List String)
deriving DecidableEq

/-- Errors surfaced by the query operations (ValueError and the dedicated
exception types of the source). -/
inductive TableError where
  | valueError
  | filterFieldNotFound (fid : Nat)
  | viewFilterTypeDoesNotExist (op : String)
  | viewFilterTypeNotAllowedForField
  | orderByFieldNotFound
  | orderByFieldNotPossible
deriving DecidableEq

/-- Strip a literal leading pattern from a character list. -/
def stripLeadList : List Char → List Char → Option (List Char)
  | [], rest => some rest
  | _ :: _, [] => none
  | p :: ps, c :: cs => if p == c then stripLeadList ps cs else none

/-- Characters an operator name may consist of ([a-zA-Z0-9_]). -/
def isOpChar (c : Char) : Bool := c.isAlphanum || c == '_'

/-- Parse a filter-object key of the exact shape
filter__field_<digits>__<operator-name>; none for every other key. -/
def parseFilterKey (key : String) : Option (Nat × String) :=
  match stripLeadList "filter__field_".data key.data with
  | none => none
  | some rest =>
    let ds := rest.takeWhile Char.isDigit
    let rest2 := rest.dropWhile Char.isDigit
    if ds.isEmpty then none
    else
      match rest2 with
      | '_' :: '_' :: op =>
        if op.all isOpChar then some (digitsVal ds, ⟨op⟩) else none
      | _ => none

/-- One comparison operator from the external view-filter catalog: the
column types it applies to and its row-level semantics. -/
structure ViewFilterType where
  compatible : FieldTag → Bool
  rowMatches : Cell → String → Bool

/-- The equal operator: text equality, or equality of the decimal
rendering for number cells. -/
def equalFilter : ViewFilterType :=
  { compatible := fun t =>
      match t with
      | .text => true
      | .long_text => true
      | .number => true
      | _ => false,
    rowMatches := fun c v =>
      match c with
      | .text s => s == v
      | .num n => intStr n == v
      | .nullv => false
      | .links _ => false }

/-- The not_equal operator. -/
def notEqualFilter : ViewFilterType :=
  { compatible := equalFilter.compatible,
    rowMatches := fun c v => !(equalFilter.rowMatches c v) }

/-- The contains operator: case-insensitive substring on text columns. -/
def containsFilter : ViewFilterType :=
  { compatible := fun t =>
      match t with
      | .text => true
      | .long_text => true
      | _ => false,
    rowMatches := fun c v =>
      match c with
      | .text s => containsCI s v
      | _ => false }

/-- The higher_than operator on number columns. -/
def higherThanFilter : ViewFilterType :=
  { compatible := fun t =>
      match t with
      | .number => true
      | _ => false,
    rowMatches := fun c v =>
      match c, v.toInt? with
      | .num n, some m => m < n
      | _, _ => false }

/-- The lower_than operator on number columns. -/
def lowerThanFilter : ViewFilterType :=
  { compatible := fun t =>
      match t with
      | .number => true
      | _ => false,
    rowMatches := fun c v =>
      match c, v.toInt? with
      | .num n, some m => n < m
      | _, _ => false }

/-- The empty operator: empty text, NULL, or empty link set. -/
def emptyFilter : ViewFilterType :=
  { compatible := fun _ => true,
    rowMatches := fun c _ =>
      match c with
      | .text s => s == ""
      | .num _ => false
      | .nullv => true
      | .links l => l.isEmpty }

/-- The view-filter catalog consumed by filter_by_fields_object. -/
def view_filter_type_registry : List (String × ViewFilterType) :=
  [("equal", equalFilter), ("not_equal", notEqualFilter),
   ("contains", containsFilter), ("higher_than", higherThanFilter),
   ("lower_than", lowerThanFilter), ("empty", emptyFilter)]

/-- Operator lookup in the catalog. -/
def lookupFilterType : List (String × ViewFilterType) → String →
    Option ViewFilterType
  | [], _ => none
  | (k, t) :: rest, op => if k = op then some t else lookupFilterType rest op

/-- An accumulated filter, Django-Q style: none is the empty Q() which
disappears when combined and matches every row. -/
def QFilter : Type := Option (Row → Bool)

/-- Combine the accumulated filter with one more condition using the
boolean operator named by filter_type. -/
def combineQ (filter_type : String) (acc : QFilter) (p : Row → Bool) : QFilter :=
  match acc with
  | none => some p
  | some q =>
    if filter_type = "AND" then some (fun r => q r && p r)
    else some (fun r => q r || p r)

/-- Row-level meaning of the accumulated filter. -/
def applyQ (acc : QFilter) (r : Row) : Bool :=
  match acc with
  | none => true
  | some p => p r

/-- Fold the recognized filter conditions of the filter object into one
accumulated filter, raising the dedicated errors on a recognized key whose
column, operator, or operator/column combination is invalid. -/
def buildFilterQ (fields : List FieldDef) (filter_type : String) :
    List (String × FilterValue) → QFilter → Except TableError QFilter
  | [], acc => .ok acc
  | (key, value) :: rest, acc =>
    match parseFilterKey key with
    | none => buildFilterQ fields filter_type rest acc
    | some (fid, opname) =>
      match findField fields fid with
      | none => .error (.filterFieldNotFound fid)
      | some fd =>
        match lookupFilterType view_filter_type_registry opname with
        | none => .error (.viewFilterTypeDoesNotExist opname)
        | some vft =>
          if vft.compatible fd.ftype then
            let values := match value with | .one s => [s] | .many l => l
            buildFilterQ fields filter_type rest
              (values.foldl
                (fun a v =>
                  combineQ filter_type a
                    (fun r => vft.rowMatches (getCell r.cells fid) v))
                acc)
          else .error .viewFilterTypeNotAllowedForField

/-- Modelled from the spec: filter_by_fields_object of table/models.py
(not under the given source tree).  Checks filter_type before touching any
key, folds the recognized conditions into one combined filter, and filters
the row set with it. -/
def filter_by_fields_object (fields : List FieldDef) (rows : List Row)
    (filter_object : List (String × FilterValue)) (filter_type : String) :
    Except TableError (List Row) :=
  if filter_type ≠ "AND" ∧ filter_type ≠ "OR" then .error .valueError
  else
    match buildFilterQ fields filter_type filter_object none with
    | .error e => .error e
    | .ok q => .ok (rows.filter (fun r => applyQ q r))

deriving instance DecidableEq for Except

/-- Row 1 of the filter/order test table (BMW). -/
def carRow1 : Row :=
  ⟨1, 1, [(1, .text "BMW"), (2, .text "Blue"), (3, .num 10000),
          (4, .text "Sports car.")]⟩

/-- Row 2 of the filter/order test table (Audi). -/
def carRow2 : Row :=
  ⟨2, 1, [(1, .text "Audi"), (2, .text "Orange"), (3, .num 20000),
          (4, .text "This is the most expensive car we have.")]⟩

/-- Row 3 of the filter/order test table (white Volkswagen). -/
def carRow3 : Row :=
  ⟨3, 1, [(1, .text "Volkswagen"), (2, .text "White"), (3, .num 5000),
          (4, .text "A very old car.")]⟩

/-- Row 4 of the filter/order test table (green Volkswagen, empty
description). -/
def carRow4 : Row :=
  ⟨4, 1, [(1, .text "Volkswagen"), (2, .text "Green"), (3, .num 4000),
          (4, .text "")]⟩

/-- Rows of the filter test (test_filter_by_fields_object_queryset). -/
def carRows : List Row := [carRow1, carRow2, carRow3, carRow4]

/-- C7: filter_by_fields_object raises the general malformed-input error
for every filter_type other than exactly "AND" or "OR", before any column
resolution — the error is raised for every filter object, including ones
whose keys reference nonexistent columns. -/
theorem filter_by_fields_object_bad_filter_type
    (fields : List FieldDef) (rows : List Row)
    (filter_object : List (String × FilterValue)) (filter_type : String)
    (h1 : filter_type ≠ "AND") (h2 : filter_type ≠ "OR") :
    filter_by_fields_object fields rows filter_object filter_type =
      .error .valueError := by
  unfold filter_by_fields_object
  rw [if_pos ⟨h1, h2⟩]

/-- Witness for C7 at the test input: filter_type "RANDOM" with a key
naming the nonexistent column 999999 still gives the malformed error. -/
theorem filter_by_fields_object_bad_filter_type_witness :
    filter_by_fields_object carFields carRows
        [("filter__field_999999__equal", .many ["BMW"])] "RANDOM" =
      .error .valueError :=
  filter_by_fields_object_bad_filter_type carFields carRows
    [("filter__field_999999__equal", .many ["BMW"])] "RANDOM"
    (by decide) (by decide)

theorem buildFilterQ_all_malformed (fields : List FieldDef)
    (filter_type : String) :
    ∀ (fo : List (String × FilterValue)) (acc : QFilter),
    (∀ kv ∈ fo, parseFilterKey kv.1 = none) →
    buildFilterQ fields filter_type fo acc = .ok acc := by
  intro fo
  induction fo with
  | nil => intro acc _; rfl
  | cons kv rest ih =>
    intro acc h
    obtain ⟨key, v⟩ := kv
    have hk : parseFilterKey key = none := h (key, v) (by simp)
    simp only [buildFilterQ, hk]
    exact ih acc (fun kv hkv => h kv (by simp [hkv]))

/-- C8: every filter-object key not matching the exact recognized shape is
silently ignored (dropping such a key never changes the outcome), and a
filter object with no recognized key returns the unfiltered row set. -/
theorem filter_ignores_malformed_keys :
    (∀ (fields : List FieldDef) (rows : List Row) (filter_type key : String)
        (v : FilterValue) (fo : List (String × FilterValue)),
      parseFilterKey key = none →
      filter_by_fields_object fields rows ((key, v) :: fo) filter_type =
        filter_by_fields_object fields rows fo filter_type) ∧
    (∀ (fields : List FieldDef) (rows : List Row) (filter_type : String)
        (fo : List (String × FilterValue)),
      (filter_type = "AND" ∨ filter_type = "OR") →
      (∀ kv ∈ fo, parseFilterKey kv.1 = none) →
      filter_by_fields_object fields rows fo filter_type = .ok rows) := by
  constructor
  · intro fields rows filter_type key v fo hk
    unfold filter_by_fields_object
    by_cases hft : filter_type ≠ "AND" ∧ filter_type ≠ "OR"
    · rw [if_pos hft, if_pos hft]
    · rw [if_neg hft, if_neg hft]
      simp only [buildFilterQ, hk]
  · intro fields rows filter_type fo hft h
    unfold filter_by_fields_object
    rw [if_neg (by rcases hft with h1 | h1 <;> simp [h1])]
    rw [buildFilterQ_all_malformed fields filter_type fo none h]
    simp [applyQ]

/-- Witness for C8 at the test input: the three malformed keys of the test
are all ignored and leave the row set unfiltered. -/
theorem filter_ignores_malformed_keys_witness :
    filter_by_fields_object carFields carRows
        [("filter__not__equal", .many ["BMW"]),
         ("filter__field_3_equal", .one "10000"),
         ("filters__field_3__equal", .one "10000")] "AND" = .ok carRows ∧
    filter_by_fields_object carFields carRows
        [("filter__not__equal", .many ["BMW"])] "AND" =
      filter_by_fields_object carFields carRows [] "AND" :=
  ⟨filter_ignores_malformed_keys.2 carFields carRows "AND"
      [("filter__not__equal", .many ["BMW"]),
       ("filter__field_3_equal", .one "10000"),
       ("filters__field_3__equal", .one "10000")]
      (Or.inl rfl) (by decide),
   filter_ignores_malformed_keys.1 carFields carRows "AND"
      "filter__not__equal" (.many ["BMW"]) [] (by decide)⟩

/-- C6: for every recognized filter key, filter_by_fields_object fails with
FilterFieldNotFound when the column id names no column of the table, with
ViewFilterTypeDoesNotExist when the operator is unknown, and with
ViewFilterTypeNotAllowedForField when the operator is known but not
applicable to the column's type. -/
theorem filter_recognized_key_errors :
    (∀ (fields : List FieldDef) (rows : List Row) (ft key : String)
        (v : FilterValue) (fo : List (String × FilterValue))
        (fid : Nat) (opname : String),
      (ft = "AND" ∨ ft = "OR") →
      parseFilterKey key = some (fid, opname) →
      findField fields fid = none →
      filter_by_fields_object fields rows ((key, v) :: fo) ft =
        .error (.filterFieldNotFound fid)) ∧
    (∀ (fields : List FieldDef) (rows : List Row) (ft key : String)
        (v : FilterValue) (fo : List (String × FilterValue))
        (fid : Nat) (opname : String) (fd : FieldDef),
      (ft = "AND" ∨ ft = "OR") →
      parseFilterKey key = some (fid, opname) →
      findField fields fid = some fd →
      lookupFilterType view_filter_type_registry opname = none →
      filter_by_fields_object fields rows ((key, v) :: fo) ft =
        .error (.viewFilterTypeDoesNotExist opname)) ∧
    (∀ (fields : List FieldDef) (rows : List Row) (ft key : String)
        (v : FilterValue) (fo : List (String × FilterValue))
        (fid : Nat) (opname : String) (fd : FieldDef) (vft : ViewFilterType),
      (ft = "AND" ∨ ft = "OR") →
      parseFilterKey key = some (fid, opname) →
      findField fields fid = some fd →
      lookupFilterType view_filter_type_registry opname = some vft →
      vft.compatible fd.ftype = false →
      filter_by_fields_object fields rows ((key, v) :: fo) ft =
        .error .viewFilterTypeNotAllowedForField) := by
  refine ⟨?_, ?_, ?_⟩
  · intro fields rows ft key v fo fid opname hft hk hf
    unfold filter_by_fields_object
    rw [if_neg (by rcases hft with h1 | h1 <;> simp [h1])]
    simp only [buildFilterQ, hk, hf]
  · intro fields rows ft key v fo fid opname fd hft hk hf hop
    unfold filter_by_fields_object
    rw [if_neg (by rcases hft with h1 | h1 <;> simp [h1])]
    simp only [buildFilterQ, hk, hf, hop]
  · intro fields rows ft key v fo fid opname fd vft hft hk hf hop hcompat
    unfold filter_by_fields_object
    rw [if_neg (by rcases hft with h1 | h1 <;> simp [h1])]
    simp only [buildFilterQ, hk, hf, hop, hcompat]
    rw [if_neg (by simp [hcompat])]

/-- Witness for C6 at the test inputs: nonexistent column 999999, unknown
operator INVALID, and contains on the number column Price. -/
theorem filter_recognized_key_errors_witness :
    filter_by_fields_object carFields carRows
        [("filter__field_999999__equal", .many ["BMW"])] "AND" =
      .error (.filterFieldNotFound 999999) ∧
    filter_by_fields_object carFields carRows
        [("filter__field_1__INVALID", .many ["BMW"])] "AND" =
      .error (.viewFilterTypeDoesNotExist "INVALID") ∧
    filter_by_fields_object carFields carRows
        [("filter__field_3__contains", .one "10")] "AND" =
      .error .viewFilterTypeNotAllowedForField :=
  ⟨filter_recognized_key_errors.1 carFields carRows "AND"
      "filter__field_999999__equal" (.many ["BMW"]) [] 999999 "equal"
      (Or.inl rfl) (by decide) (by decide),
   filter_recognized_key_errors.2.1 carFields carRows "AND"
      "filter__field_1__INVALID" (.many ["BMW"]) [] 1 "INVALID" ⟨1, .text⟩
      (Or.inl rfl) (by decide) (by decide) rfl,
   filter_recognized_key_errors.2.2 carFields carRows "AND"
      "filter__field_3__contains" (.one "10") [] 3 "contains" ⟨3, .number⟩
      containsFilter (Or.inl rfl) (by decide) (by decide) rfl rfl⟩

/-- Counterexample to C2, at the input of the repository's own test
(test_filter_by_fields_object_queryset, the "AND" case with a value
list): with filter_type "AND" and a single recognized key whose value is
the list of BMW and Audi, the operation returns no rows at all, although
the rows whose Name equals an element of the value list are exactly the
BMW and the Audi row — a value list is not treated as matches-any under
"AND". -/
theorem filter_value_list_and_counterexample :
    filter_by_fields_object carFields carRows
        [("filter__field_1__equal", .many ["BMW", "Audi"])] "AND" =
      .ok [] ∧
    carRows.filter
        (fun r => ["BMW", "Audi"].any
          (fun v => equalFilter.rowMatches (getCell r.cells 1) v)) =
      [carRow1, carRow2] ∧
    ([] : List Row) ≠ [carRow1, carRow2] := by
  refine ⟨by decide, by decide, by decide⟩

theorem foldl_combineQ_and (p : String → Row → Bool) (vs : List String) :
    ∀ (q : Row → Bool) (r : Row),
    applyQ (vs.foldl (fun a v => combineQ "AND" a (p v)) (some q)) r =
      (q r && vs.all (fun v => p v r)) := by
  induction vs with
  | nil => intro q r; simp [applyQ]
  | cons v vs ih =>
    intro q r
    simp only [List.foldl_cons, List.all_cons]
    rw [show combineQ "AND" (some q) (p v) =
      some (fun r => q r && p v r) from rfl]
    rw [ih (fun r => q r && p v r) r]
    simp [Bool.and_assoc]

theorem foldl_combineQ_or (p : String → Row → Bool) (vs : List String) :
    ∀ (q : Row → Bool) (r : Row),
    applyQ (vs.foldl (fun a v => combineQ "OR" a (p v)) (some q)) r =
      (q r || vs.any (fun v => p v r)) := by
  induction vs with
  | nil => intro q r; simp [applyQ]
  | cons v vs ih =>
    intro q r
    simp only [List.foldl_cons, List.any_cons]
    rw [show combineQ "OR" (some q) (p v) =
      some (fun r => q r || p v r) from rfl]
    rw [ih (fun r => q r || p v r) r]
    simp [Bool.or_assoc]

/-- Amended C2: for a single recognized key whose value is a nonempty list
of strings, each list element contributes one condition and the conditions
are combined with the given filter_type — under "AND" the result is the
rows whose column value matches every element of the list (so two distinct
equal-values match no row), and the matches-any reading holds under
"OR". -/
theorem filter_value_list_combines_with_filter_type
    (fields : List FieldDef) (rows : List Row) (key : String)
    (fid : Nat) (opname : String) (fd : FieldDef) (vft : ViewFilterType)
    (vs : List String)
    (hkey : parseFilterKey key = some (fid, opname))
    (hfd : findField fields fid = some fd)
    (hop : lookupFilterType view_filter_type_registry opname = some vft)
    (hcompat : vft.compatible fd.ftype = true)
    (hvs : vs ≠ []) :
    filter_by_fields_object fields rows [(key, .many vs)] "AND" =
      .ok (rows.filter (fun r =>
        vs.all (fun v => vft.rowMatches (getCell r.cells fid) v))) ∧
    filter_by_fields_object fields rows [(key, .many vs)] "OR" =
      .ok (rows.filter (fun r =>
        vs.any (fun v => vft.rowMatches (getCell r.cells fid) v))) := by
  cases vs with
  | nil => exact absurd rfl hvs
  | cons v0 vs =>
    constructor
    · unfold filter_by_fields_object
      rw [if_neg (by simp)]
      simp only [buildFilterQ, hkey, hfd, hop, hcompat, if_pos, List.foldl_cons]
      rw [show combineQ "AND" none
        (fun r => vft.rowMatches (getCell r.cells fid) v0) =
        some (fun r => vft.rowMatches (getCell r.cells fid) v0) from rfl]
      congr 1
      apply List.filter_congr
      intro r _
      rw [foldl_combineQ_and (fun v r => vft.rowMatches (getCell r.cells fid) v)
        vs (fun r => vft.rowMatches (getCell r.cells fid) v0) r]
      simp
    · unfold filter_by_fields_object
      rw [if_neg (by simp)]
      simp only [buildFilterQ, hkey, hfd, hop, hcompat, if_pos, List.foldl_cons]
      rw [show combineQ "OR" none
        (fun r => vft.rowMatches (getCell r.cells fid) v0) =
        some (fun r => vft.rowMatches (getCell r.cells fid) v0) from rfl]
      congr 1
      apply List.filter_congr
      intro r _
      rw [foldl_combineQ_or (fun v r => vft.rowMatches (getCell r.cells fid) v)
        vs (fun r => vft.rowMatches (getCell r.cells fid) v0) r]
      simp

/-- Witness for the amended C2 at the test input: the BMW/Audi value list
on the Name column, under both filter types. -/
theorem filter_value_list_combines_with_filter_type_witness :
    filter_by_fields_object carFields carRows
        [("filter__field_1__equal", .many ["BMW", "Audi"])] "AND" =
      .ok (carRows.filter (fun r =>
        ["BMW", "Audi"].all
          (fun v => equalFilter.rowMatches (getCell r.cells 1) v))) ∧
    filter_by_fields_object carFields carRows
        [("filter__field_1__equal", .many ["BMW", "Audi"])] "OR" =
      .ok (carRows.filter (fun r =>
        ["BMW", "Audi"].any
          (fun v => equalFilter.rowMatches (getCell r.cells 1) v))) :=
  filter_value_list_combines_with_filter_type carFields carRows
    "filter__field_1__equal" 1 "equal" ⟨1, .text⟩ equalFilter
    ["BMW", "Audi"] (by decide) (by decide) rfl rfl (by decide)

/-! ### order_by_fields_string (modelled from the spec)

The order string is split on commas (Python str.split).  The repository's
tests fix the token parsing: a token is recognized by the digits it
contains (field_<id>, -field_<id>, and also a bare numeric id as exercised
by test_order_by_fields_string_queryset), and a token containing no digit
at all — including the empty string's single empty token — is a ValueError.
A leading minus means descending.  A referenced id absent from the table is
OrderByFieldNotFound; a link column is not orderable and gives
OrderByFieldNotPossible.  Ties are broken by row ordering position, then
row identity. -/

/-- Python str.split(",") on a character list. -/
def splitCommaChars : List Char → List (List Char)
  | [] => [[]]
  | c :: rest =>
    if c == ',' then [] :: splitCommaChars rest
    else
      match splitCommaChars rest with
      | [] => [[c]]
      | t :: ts => (c :: t) :: ts

/-- Python str.split(",") on a string; the empty string yields one empty
token. -/
def splitOnComma (s : String) : List String :=
  (splitCommaChars s.data).map (fun l => ⟨l⟩)

/-- Field id referenced by an order token: the numeric value of the digit
characters the token contains, none when the token has no digits (the
int(re.sub(non-digits, empty, token)) parse the tests pin down). -/
def extractOrderFieldId (token : String) : Option Nat :=
  let ds := token.data.filter Char.isDigit
  if ds.isEmpty then none else some (digitsVal ds)

/-- A token starting with a minus orders descending. -/
def tokenDescending (token : String) : Bool :=
  match token.data with
  | '-' :: _ => true
  | _ => false

/-- Whether a column type declares itself orderable (isOrderable of the
type catalog): relational link columns are not. -/
def isOrderable : FieldTag → Bool
  | .link_row => false
  | _ => true

/-- Byte-wise lexicographic comparison of character lists. -/
def charListLE : List Char → List Char → Bool
  | [], _ => true
  | _ :: _, [] => false
  | a :: as, b :: bs =>
    if a.toNat < b.toNat then true
    else if b.toNat < a.toNat then false
    else charListLE as bs

/-- Lexicographic string comparison. -/
def strLE (a b : String) : Bool := charListLE a.data b.data

/-- Ordering on cells (NULLs first, then by payload). -/
def cellLE : Cell → Cell → Bool
  | .nullv, _ => true
  | _, .nullv => false
  | .text a, .text b => strLE a b
  | .text _, _ => true
  | _, .text _ => false
  | .num a, .num b => decide (a ≤ b)
  | .num _, _ => true
  | _, .num _ => false
  | .links a, .links b => decide (a.length ≤ b.length)

/-- Row comparison for a list of (field id, descending) sort keys, with
the stable secondary key (ordering position, then identity). -/
def keyLE : List (Nat × Bool) → Row → Row → Bool
  | [], r1, r2 =>
    if r1.order = r2.order then decide (r1.id ≤ r2.id)
    else decide (r1.order ≤ r2.order)
  | (fid, desc) :: ks, r1, r2 =>
    let c1 := getCell r1.cells fid
    let c2 := getCell r2.cells fid
    if c1 = c2 then keyLE ks r1 r2
    else if desc then cellLE c2 c1 else cellLE c1 c2

/-- Stable insertion into a sorted list. -/
def insertRow (le : Row → Row → Bool) (r : Row) : List Row → List Row
  | [] => [r]
  | x :: xs => if le x r then x :: insertRow le r xs else r :: x :: xs

/-- Stable insertion sort of the row set. -/
def sortRows (le : Row → Row → Bool) : List Row → List Row
  | [] => []
  | x :: xs => insertRow le x (sortRows le xs)

/-- Resolve the order tokens left to right into (field id, descending)
keys, raising the first token's error. -/
def buildOrderKeys (fields : List FieldDef) :
    List String → Except TableError (List (Nat × Bool))
  | [] => .ok []
  | t :: rest =>
    match extractOrderFieldId t with
    | none => .error .valueError
    | some fid =>
      match findField fields fid with
      | none => .error .orderByFieldNotFound
      | some fd =>
        if isOrderable fd.ftype then
          match buildOrderKeys fields rest with
          | .ok ks => .ok ((fid, tokenDescending t) :: ks)
          | .error e => .error e
        else .error .orderByFieldNotPossible

/-- Modelled from the spec: order_by_fields_string of table/models.py (not
under the given source tree), token parsing refined to the behaviour the
repository's tests pin down. -/
def order_by_fields_string (fields : List FieldDef) (rows : List Row)
    (order_string : String) : Except TableError (List Row) :=
  match buildOrderKeys fields (splitOnComma order_string) with
  | .error e => .error e
  | .ok ks => .ok (sortRows (keyLE ks) rows)

/-- The Cars table columns together with the link column of the order-by
test (create_link_row_field). -/
def orderFields : List FieldDef := carFields ++ [⟨5, .link_row⟩]

/-- Counterexample to C3, at an input of the repository's own test
(test_order_by_fields_string_queryset orders by a bare numeric id token
twice): the spec string "4" consists of one bare-digits token, which C3
says must be a malformed-input error, yet the operation succeeds and
orders by the Description column. -/
theorem order_by_bare_digits_counterexample :
    order_by_fields_string orderFields carRows "4" =
      .ok [carRow4, carRow3, carRow1, carRow2] := by
  decide

/-- Amended C3: order_by_fields_string fails with OrderByFieldNotFound
when a token references a column id absent from the table, with
OrderByFieldNotPossible when the column exists but its type is not
orderable (a link column), and with the general malformed-input error when
a token contains no digit at all (including the empty string's single
empty token); a token is recognized by the digits it contains, so bare
digits are accepted.  Stated for the first token of the order string, the
one whose error surfaces. -/
theorem order_by_fields_string_errors :
    (∀ (fields : List FieldDef) (rows : List Row) (s t : String)
        (rest : List String),
      splitOnComma s = t :: rest → extractOrderFieldId t = none →
      order_by_fields_string fields rows s = .error .valueError) ∧
    (∀ (fields : List FieldDef) (rows : List Row) (s t : String)
        (rest : List String) (fid : Nat),
      splitOnComma s = t :: rest → extractOrderFieldId t = some fid →
      findField fields fid = none →
      order_by_fields_string fields rows s = .error .orderByFieldNotFound) ∧
    (∀ (fields : List FieldDef) (rows : List Row) (s t : String)
        (rest : List String) (fid : Nat) (fd : FieldDef),
      splitOnComma s = t :: rest → extractOrderFieldId t = some fid →
      findField fields fid = some fd → isOrderable fd.ftype = false →
      order_by_fields_string fields rows s = .error .orderByFieldNotPossible) := by
  refine ⟨?_, ?_, ?_⟩
  · intro fields rows s t rest hsplit hex
    unfold order_by_fields_string
    rw [hsplit]
    simp only [buildOrderKeys, hex]
  · intro fields rows s t rest fid hsplit hex hfind
    unfold order_by_fields_string
    rw [hsplit]
    simp only [buildOrderKeys, hex, hfind]
  · intro fields rows s t rest fid fd hsplit hex hfind hord
    unfold order_by_fields_string
    rw [hsplit]
    simp only [buildOrderKeys, hex, hfind]
    rw [if_neg (by simp [hord])]

/-- Witness for the amended C3 at the test inputs: the digitless tokens
"xxxx" and "" are ValueErrors, field_99999 is OrderByFieldNotFound, and
the link column field_5 is OrderByFieldNotPossible. -/
theorem order_by_fields_string_errors_witness :
    order_by_fields_string orderFields carRows "xxxx" = .error .valueError ∧
    order_by_fields_string orderFields carRows "" = .error .valueError ∧
    order_by_fields_string orderFields carRows "field_99999" =
      .error .orderByFieldNotFound ∧
    order_by_fields_string orderFields carRows "field_5" =
      .error .orderByFieldNotPossible :=
  ⟨order_by_fields_string_errors.1 orderFields carRows "xxxx" "xxxx" []
      (by decide) (by decide),
   order_by_fields_string_errors.1 orderFields carRows "" "" []
      (by decide) (by decide),
   order_by_fields_string_errors.2.1 orderFields carRows "field_99999"
      "field_99999" [] 99999 (by decide) (by decide) (by decide),
   order_by_fields_string_errors.2.2 orderFields carRows "field_5" "field_5"
      [] 5 ⟨5, .link_row⟩ (by decide) (by decide) (by decide) (by decide)⟩
